import Mathlib

/-!
Verification of the screen-state recognition and decision engine of the
poe-toolkit repository, against its natural-language specification.

The embedding models Python strings as `List Char` (the sources only ever
handle ASCII text, for which Python's `lower`/`upper`/`strip`/`in`/`split`
agree with the character-wise functions below), Python `time.time()`
timestamps as rationals, and the Tesseract OCR collaborator as an oracle
value (`OcrOutcome`): each call site of `pytesseract.image_to_data` is one
oracle outcome, either a token list or a raised exception.

Sources embedded:
  - src/tools/league_vision/scanner.py   (ScannerWorker)
  - src/tools/league_tools/kalguur_dust/tab_tracker.py (TabTracker._match_tab_name)
-/

/-- Python strings, modelled character-wise. -/
abbrev Str := List Char

/-- Python's whitespace class for `str.strip` / regex `\s` (ASCII part). -/
def pySpace (c : Char) : Bool :=
  c = ' ' || c = '\t' || c = '\n' || c = '\r' || c = '\x0b' || c = '\x0c'

/-- Python `str.strip()` on ASCII text. -/
def pyStrip (s : Str) : Str :=
  ((s.dropWhile pySpace).reverse.dropWhile pySpace).reverse

/-- Python `str.lower()` on ASCII text. -/
def pyLower (s : Str) : Str := s.map Char.toLower

/-- Python `str.upper()` on ASCII text. -/
def pyUpper (s : Str) : Str := s.map Char.toUpper

/-- Helper for substring search: does `needle` occur in `hay`? -/
def hasSubstrAux (needle : Str) : Str → Bool
  | [] => needle.isEmpty
  | c :: t => needle.isPrefixOf (c :: t) || hasSubstrAux needle t

/-- Python's `needle in hay` substring test. -/
def pyIn (needle hay : Str) : Bool := hasSubstrAux needle hay

/-- Python `s.split(sep)` for a one-character separator (keeps empty parts). -/
def splitOn (sep : Char) : Str → List Str
  | [] => [[]]
  | c :: t =>
    let r := splitOn sep t
    if c = sep then [] :: r
    else
      match r with
      | [] => [[c]]
      | h :: rest => (c :: h) :: rest

/-- Python `", ".join`-style join with a given separator string. -/
def joinWith (sep : Str) : List Str → Str
  | [] => []
  | [s] => s
  | s :: t => s ++ sep ++ joinWith sep t

/-!
## Fuzzy vocabulary matcher
`TabTracker._match_tab_name` (tab_tracker.py lines 297-359).
-/

/-- The fixed separator set of `_match_tab_name` (`separators = ['|','}','{',']']`). -/
def tabSeparators : List Char := ['|', '}', '{', ']']

/-- Candidate derivation of `_match_tab_name`: lowercase and strip the raw OCR
text, split successively on each separator, strip each piece, drop empties. -/
def tabCandidates (ocr_text : Str) : List Str :=
  let ocr_lower := pyStrip (pyLower ocr_text)
  let cands := tabSeparators.foldl (fun cs sep => cs.flatMap (splitOn sep)) [ocr_lower]
  (cands.map pyStrip).filter (fun c => !c.isEmpty)

/-- Clean form of a (lowercased) vocabulary entry: the part after the last
`|` when one is present, else the whole entry. -/
def tabCleanName (tab_lower : Str) : Str :=
  if tab_lower.contains '|' then pyStrip ((splitOn '|' tab_lower).getLastD [])
  else tab_lower

/-- The four match rules of `_match_tab_name`, applied to one candidate:
(1) exact match with the clean name, (2) exact match with the full entry,
(3) a candidate of length at least 3 occurring inside the full entry,
(4) the clean name of length at least 2, space-padded, occurring inside the
space-padded candidate. -/
def tabRuleSat (tab_lower tab_clean cand : Str) : Bool :=
  cand == tab_clean ||
  cand == tab_lower ||
  (3 ≤ cand.length && pyIn cand tab_lower) ||
  (2 ≤ tab_clean.length && pyIn (' ' :: (tab_clean ++ [' '])) (' ' :: (cand ++ [' '])))

/-- Inner candidate loop of `_match_tab_name` for one vocabulary entry:
the four rules are tried in order against each candidate; the first hit
returns the entry. -/
def tabMatchCands (tab tab_lower tab_clean : Str) : List Str → Option Str
  | [] => none
  | cand :: rest =>
    if cand == tab_clean then some tab
    else if cand == tab_lower then some tab
    else if 3 ≤ cand.length && pyIn cand tab_lower then some tab
    else if 2 ≤ tab_clean.length &&
        pyIn (' ' :: (tab_clean ++ [' '])) (' ' :: (cand ++ [' '])) then some tab
    else tabMatchCands tab tab_lower tab_clean rest

/-- Outer vocabulary loop of `_match_tab_name`: entries whose clean form is
empty are skipped (`if not tab_clean: continue`); otherwise the first entry
with a matching candidate is returned. -/
def tabMatchTabs (cands : List Str) : List Str → Option Str
  | [] => none
  | tab :: rest =>
    let tab_lower := pyLower tab
    let tab_clean := tabCleanName tab_lower
    if tab_clean.isEmpty then tabMatchTabs cands rest
    else
      match tabMatchCands tab tab_lower tab_clean cands with
      | some t => some t
      | none => tabMatchTabs cands rest

/-- `TabTracker._match_tab_name(ocr_text)` over a vocabulary `known_tabs`. -/
def match_tab_name (ocr_text : Str) (known_tabs : List Str) : Option Str :=
  tabMatchTabs (tabCandidates ocr_text) known_tabs

/-- Modelled from the spec's matcher description (claim C4), word for word:
return the first vocabulary entry for which some candidate satisfies one of
the four precedence rules.  Unlike the source, no entry is skipped when its
derived clean form is empty. -/
def specMatchClaimed (raw : Str) (vocab : List Str) : Option Str :=
  let cands := tabCandidates raw
  vocab.find? (fun tab =>
    cands.any (tabRuleSat (pyLower tab) (tabCleanName (pyLower tab))))

/-- The spec's matcher description amended by the one fact the source adds:
a vocabulary entry whose derived clean form is empty is skipped entirely. -/
def specMatchAmended (raw : Str) (vocab : List Str) : Option Str :=
  let cands := tabCandidates raw
  vocab.find? (fun tab =>
    !(tabCleanName (pyLower tab)).isEmpty &&
      cands.any (tabRuleSat (pyLower tab) (tabCleanName (pyLower tab))))

/-- Example stash-tab vocabulary used by the spec's testable properties. -/
def exampleTabs : List Str := ["Stash 1 | S1".toList, "Stash 2 | S2".toList]

/-!
## Capture region selection in FollowCursor ("mouse") mode
`ScannerWorker.run` (scanner.py lines 218-246).
-/

/-- A screen rectangle as built by the scan loop (`{"top","left","width","height"}`). -/
structure CaptureRegion where
  top : Int
  left : Int
  width : Int
  height : Int
deriving DecidableEq

/-- The FollowCursor capture region of the scan loop: anchor = cursor plus
the configured offsets (the active x offset depends on the tooltip side
mode, both sides are covered by quantifying over `x_offset`), then clamp
with `x = max(0, min(x, screen_w - w))` and likewise for `y`. -/
def followCursorRegion (mx my x_offset y_offset w h screen_w screen_h : Int) :
    CaptureRegion :=
  let x := mx + x_offset
  let y := my + y_offset
  let xc := max 0 (min x (screen_w - w))
  let yc := max 0 (min y (screen_h - h))
  ⟨yc, xc, w, h⟩

/-!
## Findings and detector configuration
`ScanResult` (scanner.py lines 29-36) and the per-detector configuration
sections read with `config.get(section, {})`; an absent section behaves as
an empty dict, i.e. every flag reads falsy and every list reads empty.
-/

/-- The externally configured `map_device_button` screen rectangle, passed
through untouched as a Finding's blocker rect. -/
structure ButtonRect where
  x : Int
  y : Int
  width : Int
  height : Int
deriving DecidableEq

/-- `ScanResult(message, color, is_blocking, blocker_rect)`. -/
structure ScanResult where
  message : Str
  color : Str
  is_blocking : Bool
  blocker_rect : Option ButtonRect
deriving DecidableEq

/-- Case-insensitive occurrence test, Python's `a.lower() in b.lower()`. -/
def occursCI (needle hay : Str) : Bool := pyIn (pyLower needle) (pyLower hay)

/-- The `map_check` configuration section. -/
structure MapCheckConfig where
  enabled : Bool
  required_context : List Str
  bad_mods : List Str
deriving DecidableEq

/-- `ScannerWorker.check_map_safety` (scanner.py lines 488-528): disabled or
absent section yields nothing; without a required-context keyword in the
text yields nothing; with context, the first configured bad mod occurring in
the text yields a blocking red Finding carrying the configured button rect,
else a green "MAP SAFE" Finding. -/
def check_map_safety (cfg : Option MapCheckConfig) (map_device_button : ButtonRect)
    (text : Str) : Option ScanResult :=
  let c := cfg.getD ⟨false, [], []⟩
  if !c.enabled then none
  else
    let context_found := c.required_context.any (fun ctx => occursCI ctx text)
    if !context_found then none
    else
      match c.bad_mods.find? (fun m => occursCI m text) with
      | some m =>
        some ⟨"UNSAFE MAP: ".toList ++ pyUpper m, "red".toList, true, some map_device_button⟩
      | none => some ⟨"MAP SAFE".toList, "green".toList, false, none⟩

/-- Decimal digit character. -/
def digitChar : Nat → Char
  | 0 => '0'
  | 1 => '1'
  | 2 => '2'
  | 3 => '3'
  | 4 => '4'
  | 5 => '5'
  | 6 => '6'
  | 7 => '7'
  | 8 => '8'
  | _ => '9'

/-- Fuel-driven decimal rendering of a natural number. -/
def natToCharsAux : Nat → Nat → Str
  | 0, _ => []
  | fuel + 1, n =>
    if n < 10 then [digitChar n]
    else natToCharsAux fuel (n / 10) ++ [digitChar (n % 10)]

/-- Python `str(n)` for a natural number. -/
def natToChars (n : Nat) : Str := natToCharsAux (n + 1) n

/-- The `eldritch_altars` configuration section; `min_tier_to_highlight`
defaults to 1, tier keys are the parsed `int(tier_str)` values in the
dict's insertion order. -/
structure EldritchConfig where
  enabled : Bool
  bad_mods : List Str
  min_tier_to_highlight : Nat
  tiers : List (Nat × List Str)
deriving DecidableEq

/-- Inner reward loop of `check_eldritch`: a reward occurring in the text
whose tier is strictly below the accumulated best tier replaces it. -/
def eldritchRewardScan (text : Str) (tier : Nat) :
    List Str → Nat × Option Str → Nat × Option Str
  | [], acc => acc
  | reward :: rest, acc =>
    eldritchRewardScan text tier rest
      (if occursCI reward text && tier < acc.1 then (tier, some reward) else acc)

/-- Outer tier loop of `check_eldritch`: tiers above `min_tier` are skipped. -/
def eldritchTierScan (text : Str) (min_tier : Nat) :
    List (Nat × List Str) → Nat × Option Str → Nat × Option Str
  | [], acc => acc
  | (tier, rewards) :: rest, acc =>
    eldritchTierScan text min_tier rest
      (if min_tier < tier then acc else eldritchRewardScan text tier rewards acc)

/-- `ScannerWorker.check_eldritch` (scanner.py lines 530-562): a configured
bad mod occurring in the text pre-empts tier evaluation with a red DANGER
Finding; otherwise the best (lowest) tier at or below the highlight
threshold found by the scan, starting from the sentinel accumulator
`(99, none)`, yields a green ALTAR Finding, else nothing. -/
def check_eldritch (cfg : Option EldritchConfig) (text : Str) : Option ScanResult :=
  let c := cfg.getD ⟨false, [], 1, []⟩
  if !c.enabled then none
  else
    match c.bad_mods.find? (fun m => occursCI m text) with
    | some m => some ⟨"DANGER: ".toList ++ pyUpper m, "red".toList, false, none⟩
    | none =>
      let found := eldritchTierScan text c.min_tier_to_highlight c.tiers (99, none)
      match found.2 with
      | some reward =>
        some ⟨"ALTAR T".toList ++ natToChars found.1 ++ ": ".toList ++ reward,
          "green".toList, false, none⟩
      | none => none

/-- The `expedition` configuration section. -/
structure ExpeditionConfig where
  enabled : Bool
  immune_warning : List Str
  bad_mods : List Str
deriving DecidableEq

/-- `ScannerWorker.check_expedition` (scanner.py lines 564-583): gated on the
word "remnant"; first "immune to X" phrase wins, then first bad mod. -/
def check_expedition (cfg : Option ExpeditionConfig) (text : Str) : Option ScanResult :=
  let c := cfg.getD ⟨false, [], []⟩
  if !c.enabled then none
  else if !(pyIn "remnant".toList (pyLower text)) then none
  else
    match c.immune_warning.find? (fun dt => occursCI ("immune to ".toList ++ dt) text) with
    | some dt => some ⟨"IMMUNE TO ".toList ++ pyUpper dt, "red".toList, false, none⟩
    | none =>
      match c.bad_mods.find? (fun m => occursCI m text) with
      | some m => some ⟨"EXPEDITION DANGER: ".toList ++ pyUpper m, "red".toList, false, none⟩
      | none => none

/-!
## Priority resolver with temporal memory
`ScannerWorker.check_syndicate` (scanner.py lines 585-771).  The regex
searches of the source (`re.search` with `re.IGNORECASE`) are embedded as
leftmost-position scanners; the greedy bounded gap `.{0,10}` tries the
longest gap first, exactly as the backtracking engine does.  All house and
rank alternatives start with pairwise distinct prefixes, so ordered
alternation never backtracks across alternatives.
-/

/-- ASCII decimal digit test (regex `\d` on the ASCII inputs at hand). -/
def isDigitChar (c : Char) : Bool := '0' ≤ c && c ≤ '9'

/-- Case-insensitive literal: consume `pat` (given lowercased) from the
front of `s`, returning the consumed text as written and the rest. -/
def ciTake (pat s : Str) : Option (Str × Str) :=
  if pyLower (s.take pat.length) == pat then some (s.take pat.length, s.drop pat.length)
  else none

/-- Ordered alternation of case-insensitive literals. -/
def takeAlt (alts : List Str) (s : Str) : Option (Str × Str) :=
  match alts with
  | [] => none
  | a :: rest =>
    match ciTake a s with
    | some r => some r
    | none => takeAlt rest s

/-- The four syndicate house names (regex alternation, lowercased). -/
def houseWords : List Str :=
  ["transportation".toList, "fortification".toList, "research".toList,
   "intervention".toList]

/-- The five rank words (regex alternation, lowercased). -/
def rankWords : List Str :=
  ["member".toList, "leader".toList, "captain".toList, "sergeant".toList,
   "lieutenant".toList]

/-- Consume exactly `n` non-newline characters (regex `.` repeated). -/
def dropGap : Nat → Str → Option Str
  | 0, s => some s
  | _ + 1, [] => none
  | n + 1, c :: t => if c = '\n' then none else dropGap n t

/-- Greedy bounded gap `.{0,n}` followed by `p`: longest gap first. -/
def gapThen (p : Str → Option Str) : Nat → Str → Option Str
  | 0, s => p s
  | n + 1, s =>
    match dropGap (n + 1) s with
    | some s' =>
      match p s' with
      | some r => some r
      | none => gapThen p n s
    | none => gapThen p n s

/-- One attempt of `\+\d+\s+(house)\s+Intelligence` at a position; the
captured group is the house name as written. -/
def matchIntelAt (s : Str) : Option Str :=
  match s with
  | '+' :: r0 =>
    if (r0.takeWhile isDigitChar).isEmpty then none
    else
      let r1 := r0.dropWhile isDigitChar
      if (r1.takeWhile pySpace).isEmpty then none
      else
        let r2 := r1.dropWhile pySpace
        match takeAlt houseWords r2 with
        | none => none
        | some (h, r3) =>
          if (r3.takeWhile pySpace).isEmpty then none
          else
            let r4 := r3.dropWhile pySpace
            if (ciTake "intelligence".toList r4).isSome then some h else none
  | _ => none

/-- One attempt of `(rank).{0,10}(house)` at a position; captures group 2,
the house. -/
def matchRankHouseAt (s : Str) : Option Str :=
  match takeAlt rankWords s with
  | none => none
  | some (_, r) => gapThen (fun s' => (takeAlt houseWords s').map (fun x => x.1)) 10 r

/-- One attempt of `(house).{0,10}(rank)` at a position; captures group 1,
the house. -/
def matchHouseRankAt (s : Str) : Option Str :=
  match takeAlt houseWords s with
  | none => none
  | some (h, r) => gapThen (fun s' => (takeAlt rankWords s').map (fun _ => h)) 10 r

/-- One attempt of `moves to.{0,10}(house)` at a position. -/
def matchMovesToAt (s : Str) : Option Str :=
  match ciTake "moves to".toList s with
  | none => none
  | some (_, r) => gapThen (fun s' => (takeAlt houseWords s').map (fun x => x.1)) 10 r

/-- `re.search`: try the pattern attempt at each position, leftmost first
(none of the embedded patterns can match the empty suffix). -/
def reSearch (m : Str → Option Str) : Str → Option Str
  | [] => none
  | c :: t =>
    match m (c :: t) with
    | some r => some r
    | none => reSearch m t

/-- Python `str.title()` on ASCII text: uppercase a letter following a
non-letter, lowercase a letter following a letter. -/
def pyTitleAux : Bool → Str → Str
  | _, [] => []
  | prevAlpha, c :: t =>
    (if prevAlpha then Char.toLower c else Char.toUpper c) :: pyTitleAux c.isAlpha t

/-- Python `str.title()` on ASCII text. -/
def pyTitle (s : Str) : Str := pyTitleAux false s

/-- The action keywords collected from the full text, in source order. -/
def syndicateActions (ftl : Str) : List Str :=
  (if pyIn "execute".toList ftl then ["EXECUTE".toList] else []) ++
  (if pyIn "interrogate".toList ftl then ["INTERROGATE".toList] else []) ++
  (if pyIn "bargain".toList ftl then ["BARGAIN".toList] else []) ++
  (if pyIn "betray".toList ftl then ["BETRAY".toList] else []) ++
  (if pyIn "release".toList ftl then ["RELEASE".toList] else [])

/-- Per-member candidate evaluation inside the resolver loop (scanner.py
lines 644-727): default tier-1 guidance, tier-2 for a configured "remove"
goal, and tier-3 when a "moves to" phrase or the current house resolves
(intelligence pattern first, then rank-house, then house-rank). Returns
the candidate Finding and its priority tier. -/
def synEvaluate (member goal full_text : Str) : ScanResult × Nat :=
  let ftl := pyLower full_text
  let found_member := member ++ " -> ".toList ++ pyUpper goal
  let base : ScanResult × Nat :=
    if pyLower goal == "remove".toList then
      (⟨member ++ ": REMOVE (Do not Rank Up)".toList, "orange".toList, false, none⟩, 2)
    else
      (⟨found_member ++ " | ".toList ++ joinWith ", ".toList (syndicateActions ftl),
        "cyan".toList, false, none⟩, 1)
  let current_house : Option Str :=
    match reSearch matchIntelAt full_text with
    | some h => some (pyTitle h)
    | none =>
      match reSearch matchRankHouseAt full_text with
      | some h => some (pyTitle h)
      | none =>
        match reSearch matchHouseRankAt full_text with
        | some h => some (pyTitle h)
        | none => none
  match reSearch matchMovesToAt full_text with
  | some target0 =>
    let target_house := pyTitle target0
    if !(pyLower target_house == pyLower goal) then
      if pyIn "release".toList ftl then
        (⟨found_member ++ " | RELEASE (Keep Free)".toList, "green".toList, false, none⟩, 3)
      else
        (⟨found_member ++ " | AVOID ".toList ++ pyUpper target_house,
          "orange".toList, false, none⟩, 3)
    else
      (⟨found_member ++ " | EXECUTE (Join ".toList ++ goal ++ ")".toList,
        "green".toList, false, none⟩, 3)
  | none =>
    match current_house with
    | some ch =>
      if !(pyLower ch == pyLower goal) then
        if pyIn "interrogate".toList ftl then
          (⟨found_member ++ " | INTERROGATE (Remove from ".toList ++ ch ++ ")".toList,
            "green".toList, false, none⟩, 3)
        else
          (⟨found_member ++ " | REMOVE FROM ".toList ++ pyUpper ch,
            "orange".toList, false, none⟩, 3)
      else
        if pyIn "execute".toList ftl then
          (⟨found_member ++ " | EXECUTE (Rank Up in ".toList ++ ch ++ ")".toList,
            "green".toList, false, none⟩, 3)
        else if pyIn "release".toList ftl then
          (⟨found_member ++ " | RELEASE (Stay in ".toList ++ ch ++ ")".toList,
            "green".toList, false, none⟩, 3)
        else
          (⟨found_member ++ " | STAY IN ".toList ++ pyUpper ch,
            "green".toList, false, none⟩, 3)
    | none => base

/-- The running state of the resolver loop: best Finding so far, its tier,
and the last member whose name matched a recognized word. -/
structure SynScanState where
  best : Option ScanResult
  best_priority : Nat
  current_member : Option Str
deriving DecidableEq

/-- Inner goals loop for one recognized word (the dict is iterated in
insertion order; a matching member always records itself as the current
member and replaces the best Finding only on a strictly higher tier). -/
def synGoalsLoop (full_text word_lower : Str) :
    List (Str × Str) → SynScanState → SynScanState
  | [], st => st
  | (member, goal) :: rest, st =>
    synGoalsLoop full_text word_lower rest
      (if pyLower member == word_lower then
        let rp := synEvaluate member goal full_text
        if rp.2 > st.best_priority then ⟨some rp.1, rp.2, some member⟩
        else ⟨st.best, st.best_priority, some member⟩
      else st)

/-- Outer token loop: words that strip to empty are skipped. -/
def synTokenLoop (goals : List (Str × Str)) (full_text : Str) :
    List Str → SynScanState → SynScanState
  | [], st => st
  | tok :: rest, st =>
    let word := pyStrip tok
    synTokenLoop goals full_text rest
      (if word.isEmpty then st else synGoalsLoop full_text (pyLower word) goals st)

/-- The resolver's temporal memory: subject-keyed entries plus the general
"last good" slot (stored in the source under the reserved dict key
`"_last_good"`, disjoint from member names). -/
structure SyndicateMemory where
  entries : List (Str × (ℚ × ScanResult))
  last_good : Option (ℚ × ScanResult × Str)
deriving DecidableEq

/-- Association-list lookup (Python dict `get`). -/
def alLookup {α : Type} (k : Str) : List (Str × α) → Option α
  | [] => none
  | (k', v) :: rest => if k' == k then some v else alLookup k rest

/-- Association-list overwrite-or-insert (Python dict assignment): entries
are overwritten per key, never appended twice. -/
def alUpsert {α : Type} (k : Str) (v : α) : List (Str × α) → List (Str × α)
  | [] => [(k, v)]
  | (k', v') :: rest => if k' == k then (k, v) :: rest else (k', v') :: alUpsert k v rest

/-- Memory persistence and fallback (scanner.py lines 736-764): a tier-3
result is written under the member's key and mirrored into the last-good
slot; a lower-tier result for a member with a subject entry younger than
3 seconds is replaced by the cached Decision; with no result at all but
syndicate context present, the last-good slot is substituted while younger
than 2 seconds. -/
def applySynMemory (has_syndicate_context : Bool) (mem : SyndicateMemory)
    (current_time : ℚ) (st : SynScanState) : Option ScanResult × SyndicateMemory :=
  let step1 : Option ScanResult × SyndicateMemory :=
    match st.current_member with
    | none => (st.best, mem)
    | some m =>
      match st.best with
      | none => (none, mem)
      | some r =>
        if st.best_priority == 3 then
          (some r, ⟨alUpsert m (current_time, r) mem.entries, some (current_time, r, m)⟩)
        else if st.best_priority < 3 then
          match alLookup m mem.entries with
          | some tc => (if current_time - tc.1 < 3 then some tc.2 else some r, mem)
          | none => (some r, mem)
        else (some r, mem)
  if step1.1.isNone && has_syndicate_context then
    match step1.2.last_good with
    | some tg => (if current_time - tg.1 < 2 then some tg.2.1 else none, step1.2)
    | none => (none, step1.2)
  else step1

/-- The action-button context test (scanner.py line 595). -/
def hasSynButtons (ftl : Str) : Bool :=
  pyIn "execute".toList ftl || pyIn "interrogate".toList ftl || pyIn "release".toList ftl

/-- The syndicate-context keyword test (scanner.py lines 596-604). -/
def hasSynContext (ftl : Str) : Bool :=
  pyIn "intelligence".toList ftl || pyIn "imprisoned".toList ftl ||
  pyIn "rank".toList ftl || pyIn "transportation".toList ftl ||
  pyIn "fortification".toList ftl || pyIn "research".toList ftl ||
  pyIn "intervention".toList ftl

/-- `ScannerWorker.check_syndicate` (scanner.py lines 585-771): nothing
without configured goals or without card context; otherwise the token loop
followed by the memory logic.  Token bounding boxes feed only debug
overlays and the unused `detected_rank`, so tokens are the word list.
Returns the Finding together with the updated memory. -/
def check_syndicate (goals : List (Str × Str)) (tokens : List Str) (full_text : Str)
    (mem : SyndicateMemory) (current_time : ℚ) : Option ScanResult × SyndicateMemory :=
  if goals.isEmpty then (none, mem)
  else
    let ftl := pyLower full_text
    if !(hasSynButtons ftl || hasSynContext ftl) then (none, mem)
    else
      applySynMemory (hasSynContext ftl) mem current_time
        (synTokenLoop goals full_text tokens ⟨none, 0, none⟩)

/-!
## Recognition pipeline
`ScannerWorker.process_syndicate_ocr` (scanner.py lines 398-486) and
`ScannerWorker.process_image` (lines 286-396), abstracted over the OCR
collaborator: each `pytesseract.image_to_data` call site is one oracle
outcome, either a recognized token list or a raised exception.
-/

/-- One OCR invocation's outcome. -/
inductive OcrOutcome where
  | ok (tokens : List Str)
  | exn
deriving DecidableEq

/-- Meaningful-word count of one OCR pass: tokens whose stripped length
exceeds 2 (scanner.py line 458). -/
def wordCount (tokens : List Str) : Nat :=
  (tokens.filter (fun t => 2 < (pyStrip t).length)).length

/-- The concatenated text of one OCR pass: space-join of the tokens with a
nonempty strip (scanner.py lines 300, 454). -/
def joinedText (tokens : List Str) : Str :=
  joinWith [' '] (tokens.filter (fun t => !(pyStrip t).isEmpty))

/-- Accumulator of the strategy loop: collected per-strategy texts, the
best token list so far and its meaningful-word count.  (The source also
tracks `best_text`, which is never read after the loop; it is omitted.) -/
structure SynOcrAcc where
  all_texts : List Str
  best : Option (List Str)
  best_count : Nat
deriving DecidableEq

/-- One strategy step of the loop (scanner.py lines 451-469): an OCR
exception is caught and the strategy skipped; otherwise its text is
collected and the best result replaced exactly when this strategy's
meaningful-word count is strictly higher. -/
def synOcrStep (acc : SynOcrAcc) (outcome : OcrOutcome) : SynOcrAcc :=
  match outcome with
  | .exn => acc
  | .ok toks =>
    let withText : SynOcrAcc := ⟨acc.all_texts ++ [joinedText toks], acc.best, acc.best_count⟩
    if wordCount toks > withText.best_count then
      ⟨withText.all_texts, some toks, wordCount toks⟩
    else withText

/-- `process_syndicate_ocr`: the four preprocessing strategies in
declaration order (low threshold, high threshold, adaptive threshold,
combined color mask) feed the loop; when no strategy produced a meaningful
word the result falls back to one more, unguarded, OCR call whose
exception propagates.  Returns `(best tokens, combined text, n_boxes)`. -/
def process_syndicate_ocr (strategies : List OcrOutcome) (fallback : OcrOutcome) :
    Except Unit (List Str × Str × Nat) :=
  let acc := strategies.foldl synOcrStep ⟨[], none, 0⟩
  match acc.best with
  | some toks => .ok (toks, joinWith [' '] acc.all_texts, toks.length)
  | none =>
    match fallback with
    | .ok toks => .ok (toks, joinedText toks, toks.length)
    | .exn => .error ()

/-- The maximal meaningful-word count over the non-raising strategies. -/
def maxOkCount : List OcrOutcome → Nat
  | [] => 0
  | .exn :: rest => maxOkCount rest
  | .ok toks :: rest => max (wordCount toks) (maxOkCount rest)

/-- The earliest non-raising strategy with the given meaningful-word
count. -/
def firstWithCount (n : Nat) : List OcrOutcome → Option (List Str)
  | [] => none
  | .exn :: rest => firstWithCount n rest
  | .ok toks :: rest => if wordCount toks == n then some toks else firstWithCount n rest

/-!
## Keyword detector, configuration snapshot, and `process_image`
-/

/-- Keyword-detector configuration (the `essence` and `ritual` sections). -/
structure KeywordConfig where
  enabled : Bool
  keywords : List Str
deriving DecidableEq

/-- The configuration snapshot read by `process_image` and its check
modules; an absent section behaves as an empty dict. -/
structure VisionConfig where
  essence : Option KeywordConfig
  ritual : Option KeywordConfig
  map_check : Option MapCheckConfig
  map_device_button : ButtonRect
  eldritch_altars : Option EldritchConfig
  expedition : Option ExpeditionConfig
  syndicate_goals : List (Str × Str)
deriving DecidableEq

/-- Worker state crossing `process_image` cycles. -/
structure ScannerState where
  in_syndicate_board : Bool
  syndicate_board_last_seen : ℚ
  syndicate_memory : SyndicateMemory
deriving DecidableEq

/-- The syndicate-context trigger keywords (scanner.py lines 310-311). -/
def syndicateKeywords : List Str :=
  ["transportation".toList, "fortification".toList, "research".toList,
   "intervention".toList, "execute".toList, "interrogate".toList,
   "imprisoned".toList, "intelligence".toList]

/-- Essence/ritual keyword scan over individual recognized words
(scanner.py lines 347-361): words of stripped length below 3 are skipped;
each active keyword occurring (case-insensitive) inside a word appends a
green FOUND Finding, in order. -/
def keywordFindings (active : List Str) (tokens : List Str) : List ScanResult :=
  tokens.flatMap (fun tok =>
    let word := pyStrip tok
    if word.length < 3 then []
    else
      active.filterMap (fun kw =>
        if pyIn (pyLower kw) (pyLower word) then
          some ⟨"FOUND: ".toList ++ kw, "green".toList, false, none⟩
        else none))

/-- The active keyword list: essence keywords when enabled, then ritual
keywords when enabled (scanner.py lines 339-345). -/
def activeKeywords (cfg : VisionConfig) : List Str :=
  (match cfg.essence with
   | some kc => if kc.enabled then kc.keywords else []
   | none => []) ++
  (match cfg.ritual with
   | some kc => if kc.enabled then kc.keywords else []
   | none => [])

/-- `ScannerWorker.process_image` (scanner.py lines 286-396): the
first-pass OCR exception is caught and yields "nothing found"; a
syndicate-context keyword in the first-pass text switches the worker into
syndicate-board mode and replaces tokens and text by the second-pass
result of `process_syndicate_ocr` (whose fallback exception propagates);
the check modules then run in order (keywords, syndicate, map safety in
hideout only, eldritch, expedition) and the first Finding (or a map
tooltip context) makes the cycle count as "found". -/
def process_image (cfg : VisionConfig) (current_zone : Str) (now : ℚ)
    (st : ScannerState) (first_pass : OcrOutcome)
    (syn_strategies : List OcrOutcome) (syn_fallback : OcrOutcome) :
    Except Unit (Bool × ScannerState) :=
  match first_pass with
  | .exn => .ok (false, st)
  | .ok toks0 =>
    let full_text0 := joinedText toks0
    let in_hideout := pyIn "Hideout".toList current_zone
    let is_syn_context := syndicateKeywords.any (fun kw => pyIn kw (pyLower full_text0))
    let st1 : ScannerState :=
      if is_syn_context then ⟨true, now, st.syndicate_memory⟩ else st
    let second : Except Unit (Option (List Str × Str × Nat)) :=
      if is_syn_context then (process_syndicate_ocr syn_strategies syn_fallback).map some
      else .ok none
    match second with
    | .error e => .error e
    | .ok replaced =>
      let tokens := match replaced with
        | some r => r.1
        | none => toks0
      let full_text := match replaced with
        | some r => r.2.1
        | none => full_text0
      let kwResults := if in_hideout then [] else keywordFindings (activeKeywords cfg) tokens
      let synPair := if in_hideout then (none, st1.syndicate_memory)
        else check_syndicate cfg.syndicate_goals tokens full_text st1.syndicate_memory now
      let mapResult := if in_hideout then
          check_map_safety cfg.map_check cfg.map_device_button full_text
        else none
      let altarResult := if in_hideout then none else check_eldritch cfg.eldritch_altars full_text
      let expResult := if in_hideout then none else check_expedition cfg.expedition full_text
      let results := kwResults ++ synPair.1.toList ++ mapResult.toList ++
        altarResult.toList ++ expResult.toList
      let st2 : ScannerState := ⟨st1.in_syndicate_board, st1.syndicate_board_last_seen, synPair.2⟩
      if !results.isEmpty then .ok (true, st2)
      else if pyIn "map tier".toList (pyLower full_text) ||
          pyIn "item class: maps".toList (pyLower full_text) then .ok (true, st2)
      else .ok (false, st2)

/-!
## Focus gate
`ScannerWorker.is_poe_focused` (scanner.py lines 130-139) and the cycle
gate of `ScannerWorker.run` (lines 179-182).
-/

/-- The platform window service as seen by the focus check: the win32
module may be missing entirely, the foreground-window query may raise, or
it yields a window title. -/
inductive Win32Env where
  | unavailable
  | queryFails
  | foreground (title : Str)
deriving DecidableEq

/-- `is_poe_focused`: without win32 always True; a raising query yields
False (the bare `except` swallows the exception); otherwise the title must
contain "Path of Exile". -/
def is_poe_focused : Win32Env → Bool
  | .unavailable => true
  | .queryFails => false
  | .foreground title => pyIn "Path of Exile".toList title

/-- What one iteration of the scan loop's gate does. -/
inductive CycleStep where
  | skipSleep (backoff : ℚ)
  | scanCycle
deriving DecidableEq

/-- The gate at the top of each scan cycle: paused or unfocused sleeps the
fixed 0.5 s backoff and skips the cycle. -/
def loopGate (paused : Bool) (env : Win32Env) : CycleStep :=
  if paused || !(is_poe_focused env) then .skipSleep (mkRat 1 2) else .scanCycle

/-!
## Concrete scenario constants for the resolver's temporal memory
-/

/-- The spec's example subject. -/
def vorici : Str := "Vorici".toList

/-- The example subject's configured goal. -/
def vGoals : List (Str × Str) := [(vorici, "Research".toList)]

/-- A lower-confidence cycle: the member's name is recognized together
with card context, but no house or moves-to pattern resolves, so the
cycle's own candidate has tier 1. -/
def vTokens : List Str := [vorici, "Rank".toList]

/-- The concatenated text of the lower-confidence cycle. -/
def vText : Str := "Vorici Rank".toList

/-- A cycle with card context but no recognized member name. -/
def vTokensAbsent : List Str := ["Rank".toList]

/-- The concatenated text of the member-absent cycle. -/
def vTextAbsent : Str := "Rank".toList

/-- A concrete cached tier-3 Decision for the counterexample. -/
def vCached : ScanResult :=
  ⟨"Vorici -> RESEARCH | EXECUTE (Rank Up in Research)".toList,
   "green".toList, false, none⟩

/-- Memory holding both a tier-3 subject entry for Vorici and the mirrored
last-good slot, both recorded at time 0. -/
def vMemBoth : SyndicateMemory :=
  ⟨[(vorici, (0, vCached))], some (0, vCached, vorici)⟩

section MatcherLemmas

/-- The early-return candidate loop decides exactly "some candidate
satisfies some rule". -/
theorem tabMatchCands_eq_any (tab tab_lower tab_clean : Str) (cands : List Str) :
    tabMatchCands tab tab_lower tab_clean cands =
      (if cands.any (tabRuleSat tab_lower tab_clean) then some tab else none) := by
  induction cands with
  | nil => simp [tabMatchCands]
  | cons cand rest ih =>
    simp only [tabMatchCands, List.any_cons, tabRuleSat, ih]
    by_cases h1 : cand == tab_clean
    · simp [h1]
    · by_cases h2 : cand == tab_lower
      · simp [h1, h2]
      · by_cases h3 : (3 ≤ cand.length && pyIn cand tab_lower)
        · simp [h1, h2, h3]
        · by_cases h4 : (2 ≤ tab_clean.length &&
              pyIn (' ' :: (tab_clean ++ [' '])) (' ' :: (cand ++ [' '])))
          · simp [h1, h2, h3, h4]
          · simp [h1, h2, h3, h4]

/-- C3 counterexample: the claim asserts `match("stash", ["Stash 1 | S1",
"Stash 2 | S2"])` returns nothing, but the source's rule 3 (a candidate of
length at least 3 occurring inside the full entry) fires: "stash" occurs in
"stash 1 | s1", so the first entry is returned. -/
theorem C3_stash_counterexample :
    match_tab_name "stash".toList exampleTabs = some "Stash 1 | S1".toList := by
  decide

/-- C3 (amended): with vocabulary ["Stash 1 | S1", "Stash 2 | S2"], the
matcher returns "Stash 1 | S1" for raw text "s1" (clean-form exact match)
and for "xx s1 xx" (token-boundary match); for raw text "stash" it also
returns "Stash 1 | S1" (by the length-3 substring rule), not nothing. -/
theorem C3_matcher_examples :
    match_tab_name "s1".toList exampleTabs = some "Stash 1 | S1".toList ∧
    match_tab_name "xx s1 xx".toList exampleTabs = some "Stash 1 | S1".toList ∧
    match_tab_name "stash".toList exampleTabs = some "Stash 1 | S1".toList := by
  refine ⟨by decide, by decide, by decide⟩

/-- C4 counterexample: the claim's rule set, taken verbatim, returns the
entry "abc|" for raw text "abc" (rule c: a length-3 candidate inside the
full entry), but the source skips every entry whose clean form (the part
after the last bar) is empty, and returns nothing. -/
theorem C4_empty_clean_counterexample :
    match_tab_name "abc".toList ["abc|".toList] = none ∧
    specMatchClaimed "abc".toList ["abc|".toList] = some "abc|".toList := by
  refine ⟨by decide, by decide⟩

/-- C4 (amended): for every raw text and vocabulary, the matcher returns the
first vocabulary entry, in caller-supplied order, whose clean form is
nonempty and for which some candidate satisfies one of the four precedence
rules; entries with an empty derived clean form are skipped entirely. -/
theorem C4_matcher_refinement (raw : Str) (vocab : List Str) :
    match_tab_name raw vocab = specMatchAmended raw vocab := by
  unfold match_tab_name specMatchAmended
  induction vocab with
  | nil => simp [tabMatchTabs]
  | cons tab rest ih =>
    simp only [tabMatchTabs, tabMatchCands_eq_any]
    by_cases hclean : (tabCleanName (pyLower tab)).isEmpty
    · simpa [hclean] using ih
    · by_cases hany :
          (tabCandidates raw).any (tabRuleSat (pyLower tab) (tabCleanName (pyLower tab))) = true
      · simp [hclean, hany]
      · simpa [hclean, hany] using ih

end MatcherLemmas

section EldritchLemmas

/-- The reward loop either leaves the accumulator alone (no occurring
reward, or the tier is not better), or replaces it by the first occurring
reward at this tier. -/
theorem eldritchRewardScan_eq (text : Str) (tier : Nat) (rs : List Str)
    (acc : Nat × Option Str) :
    eldritchRewardScan text tier rs acc =
      if tier < acc.1 then
        match rs.find? (fun w => occursCI w text) with
        | some w => (tier, some w)
        | none => acc
      else acc := by
  induction rs generalizing acc with
  | nil => simp [eldritchRewardScan]
  | cons w rest ih =>
    simp only [eldritchRewardScan, List.find?_cons]
    by_cases hw : occursCI w text = true
    · by_cases ht : tier < acc.1
      · simp [hw, ht, ih]
      · simp [hw, ht, ih]
    · by_cases ht : tier < acc.1
      · simp [Bool.not_eq_true] at hw
        simp [hw, ht, ih]
      · simp [Bool.not_eq_true] at hw
        simp [hw, ht, ih]

/-- The tier loop never increases the accumulated best tier. -/
theorem eldritchTierScan_fst_le (text : Str) (min_tier : Nat)
    (ts : List (Nat × List Str)) (acc : Nat × Option Str) :
    (eldritchTierScan text min_tier ts acc).1 ≤ acc.1 := by
  induction ts generalizing acc with
  | nil => simp [eldritchTierScan]
  | cons p rest ih =>
    obtain ⟨tier, rewards⟩ := p
    simp only [eldritchTierScan]
    by_cases hmt : min_tier < tier
    · simpa [hmt] using ih acc
    · have step := ih (eldritchRewardScan text tier rewards acc)
      have hle : (eldritchRewardScan text tier rewards acc).1 ≤ acc.1 := by
        rw [eldritchRewardScan_eq]
        by_cases ht : tier < acc.1
        · cases hfind : rewards.find? (fun w => occursCI w text) <;> simp [ht, hfind]
          · omega
        · simp [ht]
      simp only [hmt, if_false]
      omega

/-- Completeness of the tier loop: an occurring reward at an eligible tier
bounds the accumulated best tier from above. -/
theorem eldritchTierScan_le_of_mem (text : Str) (min_tier : Nat)
    (ts : List (Nat × List Str)) (t : Nat) (rs : List Str) (w : Str)
    (ht : t ≤ min_tier) (hw : w ∈ rs) (hocc : occursCI w text = true) :
    ∀ acc : Nat × Option Str, (t, rs) ∈ ts →
      (eldritchTierScan text min_tier ts acc).1 ≤ t := by
  induction ts with
  | nil =>
    intro acc hmem
    simp at hmem
  | cons p rest ih =>
    intro acc hmem
    obtain ⟨tier, rewards⟩ := p
    rcases List.mem_cons.mp hmem with hhead | htail
    · injection hhead with h1 h2
      subst h1
      subst h2
      simp only [eldritchTierScan, if_neg (Nat.not_lt.mpr ht)]
      have hstep : (eldritchRewardScan text t rs acc).1 ≤ t := by
        rw [eldritchRewardScan_eq]
        by_cases htt : t < acc.1
        · obtain ⟨x, hx⟩ : ∃ x, rs.find? (fun w => occursCI w text) = some x := by
            have hs : (rs.find? (fun w => occursCI w text)).isSome = true := by
              rw [List.find?_isSome]
              exact ⟨w, hw, hocc⟩
            exact Option.isSome_iff_exists.mp hs
          simp [htt, hx]
        · simp only [htt, if_false]
          omega
      calc (eldritchTierScan text min_tier rest (eldritchRewardScan text t rs acc)).1
          ≤ (eldritchRewardScan text t rs acc).1 := eldritchTierScan_fst_le _ _ _ _
        _ ≤ t := hstep
    · simp only [eldritchTierScan]
      by_cases hmt : min_tier < tier
      · simpa [hmt] using ih acc htail
      · simpa [hmt] using ih (eldritchRewardScan text tier rewards acc) htail

/-- Soundness of the tier loop: the result is either the untouched
accumulator, or the pair of an eligible tier strictly better than the
accumulator and one of its occurring rewards. -/
theorem eldritchTierScan_cases (text : Str) (min_tier : Nat)
    (ts : List (Nat × List Str)) (acc : Nat × Option Str) :
    eldritchTierScan text min_tier ts acc = acc ∨
    ∃ t rs w, (t, rs) ∈ ts ∧ w ∈ rs ∧ occursCI w text = true ∧ t ≤ min_tier ∧
      t < acc.1 ∧ eldritchTierScan text min_tier ts acc = (t, some w) := by
  induction ts generalizing acc with
  | nil => simp [eldritchTierScan]
  | cons p rest ih =>
    obtain ⟨tier, rewards⟩ := p
    simp only [eldritchTierScan]
    by_cases hmt : min_tier < tier
    · rcases ih acc with h | ⟨t, rs, w, hmem, hw, hocc, htm, hta, heq⟩
      · left; simpa [hmt] using h
      · right; exact ⟨t, rs, w, List.mem_cons_of_mem _ hmem, hw, hocc, htm, hta,
          by simpa [hmt] using heq⟩
    · rw [if_neg hmt]
      rw [eldritchRewardScan_eq]
      by_cases ht : tier < acc.1
      · cases hfind : rewards.find? (fun w => occursCI w text) with
        | none =>
          simp only [ht, if_true, hfind]
          rcases ih acc with h | ⟨t, rs, w, hmem, hw, hocc, htm, hta, heq⟩
          · left; exact h
          · right; exact ⟨t, rs, w, List.mem_cons_of_mem _ hmem, hw, hocc, htm, hta, heq⟩
        | some w =>
          simp only [ht, if_true, hfind]
          rcases ih (tier, some w) with h | ⟨t, rs', w', hmem, hw', hocc, htm, hta, heq⟩
          · right
            exact ⟨tier, rewards, w, List.mem_cons_self _ _,
              List.mem_of_find?_eq_some hfind, by simpa using List.find?_some hfind,
              by omega, ht, h⟩
          · right
            refine ⟨t, rs', w', List.mem_cons_of_mem _ hmem, hw', hocc, htm, ?_, heq⟩
            simp only at hta
            omega
      · simp only [ht, if_false]
        rcases ih acc with h | ⟨t, rs, w, hmem, hw, hocc, htm, hta, heq⟩
        · left; exact h
        · right; exact ⟨t, rs, w, List.mem_cons_of_mem _ hmem, hw, hocc, htm, hta, heq⟩

end EldritchLemmas

/-- C7: for every text and enabled map-check configuration, (1) without any
required-context keyword occurring (case-insensitive) in the text the
detector returns nothing, regardless of bad mods; (2) with context present
and some configured bad mod occurring, it returns a blocking red Finding
carrying the externally configured button rectangle; (3) with context
present and no bad mod occurring, it returns the green "MAP SAFE" Finding. -/
theorem C7_context_gated_danger (cfg : MapCheckConfig) (btn : ButtonRect) (text : Str)
    (hen : cfg.enabled = true) :
    ((∀ ctx ∈ cfg.required_context, ¬ occursCI ctx text = true) →
      check_map_safety (some cfg) btn text = none) ∧
    ((∃ ctx ∈ cfg.required_context, occursCI ctx text = true) →
      (∃ m ∈ cfg.bad_mods, occursCI m text = true) →
      ∃ m, m ∈ cfg.bad_mods ∧ occursCI m text = true ∧
        check_map_safety (some cfg) btn text =
          some ⟨"UNSAFE MAP: ".toList ++ pyUpper m, "red".toList, true, some btn⟩) ∧
    ((∃ ctx ∈ cfg.required_context, occursCI ctx text = true) →
      (∀ m ∈ cfg.bad_mods, ¬ occursCI m text = true) →
      check_map_safety (some cfg) btn text =
        some ⟨"MAP SAFE".toList, "green".toList, false, none⟩) := by
  refine ⟨?_, ?_, ?_⟩
  · intro hctx
    have hany : cfg.required_context.any (fun ctx => occursCI ctx text) = false := by
      rw [List.any_eq_false]
      exact hctx
    simp [check_map_safety, hen, hany]
  · intro hctx hbad
    have hany : cfg.required_context.any (fun ctx => occursCI ctx text) = true := by
      rw [List.any_eq_true]
      exact hctx
    obtain ⟨m, hfind⟩ : ∃ m, cfg.bad_mods.find? (fun m => occursCI m text) = some m := by
      have hs : (cfg.bad_mods.find? (fun m => occursCI m text)).isSome = true := by
        rw [List.find?_isSome]
        exact hbad
      exact Option.isSome_iff_exists.mp hs
    refine ⟨m, List.mem_of_find?_eq_some hfind, by simpa using List.find?_some hfind, ?_⟩
    simp [check_map_safety, hen, hany, hfind]
  · intro hctx hno
    have hany : cfg.required_context.any (fun ctx => occursCI ctx text) = true := by
      rw [List.any_eq_true]
      exact hctx
    have hfind : cfg.bad_mods.find? (fun m => occursCI m text) = none := by
      rw [List.find?_eq_none]
      exact hno
    simp [check_map_safety, hen, hany, hfind]

/-- C7 witness: the theorem applied at a concrete enabled configuration
(context keyword "map tier", bad mod "reflect") to a text containing both,
yielding the blocking danger Finding. -/
theorem C7_witness :
    ∃ m, m ∈ ["reflect".toList] ∧
      occursCI m "Map Tier: 16 Monsters reflect elemental damage".toList = true ∧
      check_map_safety (some ⟨true, ["map tier".toList], ["reflect".toList]⟩)
          ⟨100, 200, 50, 40⟩ "Map Tier: 16 Monsters reflect elemental damage".toList =
        some ⟨"UNSAFE MAP: ".toList ++ pyUpper m, "red".toList, true,
          some ⟨100, 200, 50, 40⟩⟩ :=
  (C7_context_gated_danger ⟨true, ["map tier".toList], ["reflect".toList]⟩
      ⟨100, 200, 50, 40⟩ "Map Tier: 16 Monsters reflect elemental damage".toList
      rfl).2.1 (by decide) (by decide)

/-- C8 counterexample: the claim as stated promises a Finding for any
occurring reward whose tier is at or below the threshold, but the source
initializes its best-tier accumulator to the sentinel 99 and only accepts
strictly smaller tiers, so a configured reward at tier 99 with threshold 99
occurring in the text yields nothing. -/
theorem C8_sentinel_counterexample :
    (99 ≤ 99 ∧ occursCI "gold".toList "gold".toList = true) ∧
    check_eldritch (some ⟨true, [], 99, [(99, ["gold".toList])]⟩) "gold".toList = none := by
  refine ⟨⟨by decide, by decide⟩, by decide⟩

/-- C8 (amended): for every text and enabled eldritch-altar configuration,
(1) an occurring configured bad-outcome keyword pre-empts tier evaluation
with a red DANGER Finding; otherwise (2) if every occurring reward at an
eligible tier sits at or above the sentinel 99 the detector returns
nothing, and (3) if some reward occurs at a tier at or below the threshold
and strictly below 99, the detector returns a green ALTAR Finding for an
occurring eligible reward of the numerically smallest such tier; in
particular for tiers {1: ["Gold"], 2: ["Silver"]} with threshold 2 and a
text containing both, tier 1 ("Gold") wins. -/
theorem C8_tiered_rewards (cfg : EldritchConfig) (text : Str)
    (hen : cfg.enabled = true) :
    ((∃ m ∈ cfg.bad_mods, occursCI m text = true) →
      ∃ m, m ∈ cfg.bad_mods ∧ occursCI m text = true ∧
        check_eldritch (some cfg) text =
          some ⟨"DANGER: ".toList ++ pyUpper m, "red".toList, false, none⟩) ∧
    ((∀ m ∈ cfg.bad_mods, ¬ occursCI m text = true) →
      (∀ t rs w, (t, rs) ∈ cfg.tiers → t ≤ cfg.min_tier_to_highlight → w ∈ rs →
        occursCI w text = true → 99 ≤ t) →
      check_eldritch (some cfg) text = none) ∧
    ((∀ m ∈ cfg.bad_mods, ¬ occursCI m text = true) →
      ∀ t₀ rs₀ w₀, (t₀, rs₀) ∈ cfg.tiers → t₀ ≤ cfg.min_tier_to_highlight → t₀ < 99 →
        w₀ ∈ rs₀ → occursCI w₀ text = true →
        ∃ t rs w, (t, rs) ∈ cfg.tiers ∧ w ∈ rs ∧ occursCI w text = true ∧
          t ≤ cfg.min_tier_to_highlight ∧
          (∀ t' rs' w', (t', rs') ∈ cfg.tiers → t' ≤ cfg.min_tier_to_highlight →
            w' ∈ rs' → occursCI w' text = true → t ≤ t') ∧
          check_eldritch (some cfg) text =
            some ⟨"ALTAR T".toList ++ natToChars t ++ ": ".toList ++ w,
              "green".toList, false, none⟩) ∧
    check_eldritch (some ⟨true, [], 2, [(1, ["Gold".toList]), (2, ["Silver".toList])]⟩)
        "an altar offering Gold and Silver".toList =
      some ⟨"ALTAR T".toList ++ natToChars 1 ++ ": ".toList ++ "Gold".toList,
        "green".toList, false, none⟩ := by
  refine ⟨?_, ?_, ?_, by decide⟩
  · intro hbad
    obtain ⟨m, hfind⟩ : ∃ m, cfg.bad_mods.find? (fun m => occursCI m text) = some m := by
      have hs : (cfg.bad_mods.find? (fun m => occursCI m text)).isSome = true := by
        rw [List.find?_isSome]
        exact hbad
      exact Option.isSome_iff_exists.mp hs
    refine ⟨m, List.mem_of_find?_eq_some hfind, by simpa using List.find?_some hfind, ?_⟩
    simp [check_eldritch, hen, hfind]
  · intro hno hhigh
    have hfind : cfg.bad_mods.find? (fun m => occursCI m text) = none := by
      rw [List.find?_eq_none]
      exact hno
    rcases eldritchTierScan_cases text cfg.min_tier_to_highlight cfg.tiers (99, none) with
      h | ⟨t, rs, w, hmem, hw, hocc, htm, hta, heq⟩
    · simp [check_eldritch, hen, hfind, h]
    · exact absurd (hhigh t rs w hmem htm hw hocc) (by simpa using hta)
  · intro hno t₀ rs₀ w₀ hmem₀ ht₀ ht99 hw₀ hocc₀
    have hfind : cfg.bad_mods.find? (fun m => occursCI m text) = none := by
      rw [List.find?_eq_none]
      exact hno
    have hbound := eldritchTierScan_le_of_mem text cfg.min_tier_to_highlight cfg.tiers
      t₀ rs₀ w₀ ht₀ hw₀ hocc₀ (99, none) hmem₀
    rcases eldritchTierScan_cases text cfg.min_tier_to_highlight cfg.tiers (99, none) with
      h | ⟨t, rs, w, hmem, hw, hocc, htm, _hta, heq⟩
    · rw [h] at hbound
      simp only at hbound
      omega
    · refine ⟨t, rs, w, hmem, hw, hocc, htm, ?_, ?_⟩
      · intro t' rs' w' hmem' ht' hw' hocc'
        have := eldritchTierScan_le_of_mem text cfg.min_tier_to_highlight cfg.tiers
          t' rs' w' ht' hw' hocc' (99, none) hmem'
        rw [heq] at this
        simpa using this
      · simp [check_eldritch, hen, hfind, heq]

/-- C8 witness: the amended theorem applied at the spec's example
configuration (tiers 1 = Gold, 2 = Silver, threshold 2, no bad mods) to a
text containing both rewards. -/
theorem C8_witness :
    ∃ t rs w,
      (t, rs) ∈ [(1, ["Gold".toList]), (2, ["Silver".toList])] ∧ w ∈ rs ∧
      occursCI w "an altar offering Gold and Silver".toList = true ∧ t ≤ 2 ∧
      (∀ t' rs' w', (t', rs') ∈ [(1, ["Gold".toList]), (2, ["Silver".toList])] → t' ≤ 2 →
        w' ∈ rs' → occursCI w' "an altar offering Gold and Silver".toList = true → t ≤ t') ∧
      check_eldritch (some ⟨true, [], 2, [(1, ["Gold".toList]), (2, ["Silver".toList])]⟩)
          "an altar offering Gold and Silver".toList =
        some ⟨"ALTAR T".toList ++ natToChars t ++ ": ".toList ++ w,
          "green".toList, false, none⟩ :=
  (C8_tiered_rewards ⟨true, [], 2, [(1, ["Gold".toList]), (2, ["Silver".toList])]⟩
      "an altar offering Gold and Silver".toList rfl).2.2.1 (by decide)
    1 ["Gold".toList] "Gold".toList (by decide) (by decide) (by decide) (by decide) (by decide)

/-- C5 counterexample: with a configured hover width of 2000 on a
1920-pixel-wide screen, the clamp anchors the region at 0 and the region
overflows the right screen edge, so the computed rectangle is not fully
within the screen. -/
theorem C5_oversized_counterexample :
    ¬ ((followCursorRegion 0 0 0 0 2000 800 1920 1080).left +
        (followCursorRegion 0 0 0 0 2000 800 1920 1080).width ≤ 1920) := by
  decide

/-- C5 (amended): in FollowCursor mode, for every cursor position, every
hover-region offset configuration and every primary-screen size, provided
the configured region fits on the screen (width at most the screen width
and height at most the screen height), the computed capture region lies
fully within the screen: left and top are nonnegative, left plus width is
at most the screen width, and top plus height is at most the screen
height. -/
theorem C5_region_within_screen
    (mx my x_offset y_offset w h screen_w screen_h : Int)
    (hw : w ≤ screen_w) (hh : h ≤ screen_h) :
    0 ≤ (followCursorRegion mx my x_offset y_offset w h screen_w screen_h).left ∧
    (followCursorRegion mx my x_offset y_offset w h screen_w screen_h).left + w ≤ screen_w ∧
    0 ≤ (followCursorRegion mx my x_offset y_offset w h screen_w screen_h).top ∧
    (followCursorRegion mx my x_offset y_offset w h screen_w screen_h).top + h ≤ screen_h := by
  unfold followCursorRegion
  simp only
  omega

/-- C5 witness: the amended theorem applied at the default configuration
(600 by 800 hover box, offsets 50 and -100) on a 1920 by 1080 screen, at
cursor position (1900, 30). -/
theorem C5_region_witness :
    (600 : Int) ≤ 1920 ∧ (800 : Int) ≤ 1080 ∧
    (0 ≤ (followCursorRegion 1900 30 50 (-100) 600 800 1920 1080).left ∧
     (followCursorRegion 1900 30 50 (-100) 600 800 1920 1080).left + 600 ≤ 1920 ∧
     0 ≤ (followCursorRegion 1900 30 50 (-100) 600 800 1920 1080).top ∧
     (followCursorRegion 1900 30 50 (-100) 600 800 1920 1080).top + 800 ≤ 1080) :=
  ⟨by decide, by decide,
   C5_region_within_screen 1900 30 50 (-100) 600 800 1920 1080 (by decide) (by decide)⟩


unseal Rat.sub in
/-- C2 counterexample: the claim asserts that a tier-3 Decision for
"Vorici" recorded at time T is returned even for an ABSENT result for
"Vorici" at T+2.9s; but when no token matches the member name, the
subject-keyed 3-second memory is never consulted — only the general
last-good slot with its 2-second TTL — so at age 2.9s, with syndicate
context but no "Vorici" token, nothing is returned. -/
theorem C2_absent_counterexample :
    check_syndicate vGoals vTokensAbsent vTextAbsent vMemBoth (mkRat 29 10) =
      (none, vMemBoth) := by
  decide

/-- C2 (amended): the temporal-memory TTLs of the priority resolver.  With
the subject's name recognized and a lower-confidence (tier < 3) cycle
result, the cached tier-3 Decision for that subject is substituted exactly
while its age is strictly under 3 seconds (parts 1-2, on the concrete
Vorici scenario with a symbolic clock); with no recognized subject the
general last-good entry is substituted exactly while its age is strictly
under 2 seconds (parts 3-4); and in full generality a subject entry of age
at least 3 seconds, or a last-good entry of age at least 2 seconds, is
never returned (parts 5-6). -/
theorem C2_ttl_memory (t_rec now : ℚ) (cached : ScanResult) :
    (now - t_rec < 3 →
      check_syndicate vGoals vTokens vText ⟨[(vorici, (t_rec, cached))], none⟩ now =
        (some cached, ⟨[(vorici, (t_rec, cached))], none⟩)) ∧
    (3 ≤ now - t_rec →
      check_syndicate vGoals vTokens vText ⟨[(vorici, (t_rec, cached))], none⟩ now =
        (some (synEvaluate vorici "Research".toList vText).1,
         ⟨[(vorici, (t_rec, cached))], none⟩)) ∧
    (now - t_rec < 2 →
      check_syndicate vGoals vTokensAbsent vTextAbsent
          ⟨[], some (t_rec, cached, vorici)⟩ now =
        (some cached, ⟨[], some (t_rec, cached, vorici)⟩)) ∧
    (2 ≤ now - t_rec →
      check_syndicate vGoals vTokensAbsent vTextAbsent
          ⟨[], some (t_rec, cached, vorici)⟩ now =
        (none, ⟨[], some (t_rec, cached, vorici)⟩)) ∧
    (∀ (hasCtx : Bool) (mem : SyndicateMemory) (r : ScanResult) (p : Nat) (m : Str)
        (tc : ℚ × ScanResult), p < 3 → alLookup m mem.entries = some tc →
      3 ≤ now - tc.1 →
      (applySynMemory hasCtx mem now ⟨some r, p, some m⟩).1 = some r) ∧
    (∀ (mem : SyndicateMemory) (tg : ℚ × ScanResult × Str),
      mem.last_good = some tg → 2 ≤ now - tg.1 →
      (applySynMemory true mem now ⟨none, 0, none⟩).1 = none) := by
  have hempty : vGoals.isEmpty = false := by decide
  have hctx1 : (hasSynButtons (pyLower vText) || hasSynContext (pyLower vText)) = true := by
    decide
  have hctx2 : hasSynContext (pyLower vText) = true := by decide
  have hst : synTokenLoop vGoals vText vTokens ⟨none, 0, none⟩ =
      ⟨some (synEvaluate vorici "Research".toList vText).1, 1, some vorici⟩ := by decide
  have hctx3 : (hasSynButtons (pyLower vTextAbsent) ||
      hasSynContext (pyLower vTextAbsent)) = true := by decide
  have hctx4 : hasSynContext (pyLower vTextAbsent) = true := by decide
  have hst2 : synTokenLoop vGoals vTextAbsent vTokensAbsent ⟨none, 0, none⟩ =
      ⟨none, 0, none⟩ := by decide
  have hlook : alLookup vorici [(vorici, (t_rec, cached))] = some (t_rec, cached) := by
    simp [alLookup]
  refine ⟨?_, ?_, ?_, ?_, ?_, ?_⟩
  · intro h
    simp only [check_syndicate, hempty, Bool.false_eq_true, if_false, hctx1, hctx2,
      Bool.not_true, hst, applySynMemory, hlook, if_pos h]
    simp
  · intro h
    simp only [check_syndicate, hempty, Bool.false_eq_true, if_false, hctx1, hctx2,
      Bool.not_true, hst, applySynMemory, hlook, if_neg (not_lt.mpr h)]
    simp
  · intro h
    simp only [check_syndicate, hempty, Bool.false_eq_true, if_false, hctx3, hctx4,
      Bool.not_true, hst2, applySynMemory, if_pos h]
    simp
  · intro h
    simp only [check_syndicate, hempty, Bool.false_eq_true, if_false, hctx3, hctx4,
      Bool.not_true, hst2, applySynMemory, if_neg (not_lt.mpr h)]
    simp
  · intro hasCtx mem r p m tc hp hlk hage
    have hne : (p == 3) = false := by
      simp only [Nat.beq_eq_true_eq, beq_eq_false_iff_ne, ne_eq]
      omega
    simp only [applySynMemory, hne, Bool.false_eq_true, if_false, if_pos hp, hlk,
      if_neg (not_lt.mpr hage)]
    simp
  · intro mem tg hlg hage
    simp only [applySynMemory, hlg, if_neg (not_lt.mpr hage)]
    simp

unseal Rat.sub in
/-- C2 witness: the amended theorem applied on the Vorici scenario with the
tier-3 Decision recorded at time 0, queried at 2.9 s (cached Decision
returned) and at 3.1 s (the cycle's own lower-tier result returned). -/
theorem C2_ttl_memory_witness :
    check_syndicate vGoals vTokens vText ⟨[(vorici, (0, vCached))], none⟩ (mkRat 29 10) =
      (some vCached, ⟨[(vorici, (0, vCached))], none⟩) ∧
    check_syndicate vGoals vTokens vText ⟨[(vorici, (0, vCached))], none⟩ (mkRat 31 10) =
      (some (synEvaluate vorici "Research".toList vText).1,
       ⟨[(vorici, (0, vCached))], none⟩) :=
  ⟨(C2_ttl_memory 0 (mkRat 29 10) vCached).1 (by decide),
   (C2_ttl_memory 0 (mkRat 31 10) vCached).2.1 (by decide)⟩

/-- Characterization of the strategy-selection fold: when the maximal
meaningful-word count among the non-raising strategies exceeds the
accumulator's count, the fold selects the earliest strategy achieving that
maximum; otherwise the accumulator's selection survives. -/
theorem synOcrFold_best (outs : List OcrOutcome) :
    ∀ acc : SynOcrAcc,
      (acc.best_count < maxOkCount outs →
        (outs.foldl synOcrStep acc).best = firstWithCount (maxOkCount outs) outs ∧
        (outs.foldl synOcrStep acc).best_count = maxOkCount outs) ∧
      (maxOkCount outs ≤ acc.best_count →
        (outs.foldl synOcrStep acc).best = acc.best ∧
        (outs.foldl synOcrStep acc).best_count = acc.best_count) := by
  induction outs with
  | nil =>
    intro acc
    refine ⟨fun h => ?_, fun _ => by simp [List.foldl]⟩
    simp [maxOkCount] at h
  | cons out rest ih =>
    intro acc
    cases out with
    | exn =>
      simpa only [List.foldl, synOcrStep, maxOkCount, firstWithCount] using ih acc
    | ok toks =>
      simp only [List.foldl, synOcrStep, maxOkCount, firstWithCount]
      by_cases hw : wordCount toks > acc.best_count
      · simp only [hw, if_true]
        constructor
        · intro _
          rcases Nat.lt_or_ge (wordCount toks) (maxOkCount rest) with hM | hM
          · have hmax : max (wordCount toks) (maxOkCount rest) = maxOkCount rest :=
              Nat.max_eq_right hM.le
            have hne : (wordCount toks == maxOkCount rest) = false :=
              beq_eq_false_iff_ne.mpr (Nat.ne_of_lt hM)
            rw [hmax, hne, if_neg (by simp)]
            exact (ih ⟨acc.all_texts ++ [joinedText toks], some toks, wordCount toks⟩).1 hM
          · have hmax : max (wordCount toks) (maxOkCount rest) = wordCount toks :=
              Nat.max_eq_left hM
            rw [hmax, beq_self_eq_true, if_pos rfl]
            exact (ih ⟨acc.all_texts ++ [joinedText toks], some toks, wordCount toks⟩).2 hM
        · intro h
          exfalso
          omega
      · simp only [hw, if_false]
        have hwle : wordCount toks ≤ acc.best_count := by omega
        constructor
        · intro h
          have hM : wordCount toks < maxOkCount rest := by omega
          have hmax : max (wordCount toks) (maxOkCount rest) = maxOkCount rest :=
            Nat.max_eq_right hM.le
          have hne : (wordCount toks == maxOkCount rest) = false :=
            beq_eq_false_iff_ne.mpr (Nat.ne_of_lt hM)
          rw [hmax, hne, if_neg (by simp)]
          refine (ih ⟨acc.all_texts ++ [joinedText toks], acc.best, acc.best_count⟩).1 ?_
          simpa using by omega
        · intro h
          refine (ih ⟨acc.all_texts ++ [joinedText toks], acc.best, acc.best_count⟩).2 ?_
          simpa using by omega

/-- The earliest strategy achieving the maximal count exists as soon as
the maximal count is positive, and its count is that maximum. -/
theorem firstWithCount_maxOkCount (outs : List OcrOutcome) :
    0 < maxOkCount outs →
    ∃ toks, firstWithCount (maxOkCount outs) outs = some toks ∧
      wordCount toks = maxOkCount outs := by
  induction outs with
  | nil => intro h; simp [maxOkCount] at h
  | cons out rest ih =>
    intro h
    cases out with
    | exn => simpa only [maxOkCount, firstWithCount] using ih (by simpa [maxOkCount] using h)
    | ok toks =>
      simp only [maxOkCount, firstWithCount] at h ⊢
      rcases Nat.lt_or_ge (wordCount toks) (maxOkCount rest) with hM | hM
      · have hmax : max (wordCount toks) (maxOkCount rest) = maxOkCount rest :=
          Nat.max_eq_right hM.le
        have hne : (wordCount toks == maxOkCount rest) = false :=
          beq_eq_false_iff_ne.mpr (Nat.ne_of_lt hM)
        rw [hmax, hne, if_neg (by simp)]
        exact ih (by omega)
      · have hmax : max (wordCount toks) (maxOkCount rest) = wordCount toks :=
          Nat.max_eq_left hM
        rw [hmax, beq_self_eq_true, if_pos rfl]
        exact ⟨toks, rfl, rfl⟩

/-- C6: the second-pass pipeline runs its strategies in declaration order
and deterministically selects the one whose count of meaningful tokens
(stripped length above 2) is highest, ties broken in favor of the earlier
strategy.  In general (part 1) the selected token list is the earliest one
achieving the maximal count; in particular (part 2) four strategies with
counts [2, 5, 0, 5] select the strategy at index 1, not index 3. -/
theorem C6_strategy_selection :
    (∀ (outs : List OcrOutcome) (fallback : OcrOutcome), 0 < maxOkCount outs →
      ∃ toks, firstWithCount (maxOkCount outs) outs = some toks ∧
        wordCount toks = maxOkCount outs ∧
        process_syndicate_ocr outs fallback =
          .ok (toks, joinWith [' '] ((outs.foldl synOcrStep ⟨[], none, 0⟩).all_texts),
            toks.length)) ∧
    (∀ (t0 t1 t2 t3 : List Str) (fallback : OcrOutcome),
      wordCount t0 = 2 → wordCount t1 = 5 → wordCount t2 = 0 → wordCount t3 = 5 →
      process_syndicate_ocr [.ok t0, .ok t1, .ok t2, .ok t3] fallback =
        .ok (t1, joinWith [' ']
            [joinedText t0, joinedText t1, joinedText t2, joinedText t3],
          t1.length)) := by
  constructor
  · intro outs fallback hpos
    obtain ⟨toks, hfirst, hcount⟩ := firstWithCount_maxOkCount outs hpos
    have hchar := (synOcrFold_best outs ⟨[], none, 0⟩).1 (by simpa using hpos)
    refine ⟨toks, hfirst, hcount, ?_⟩
    simp only [process_syndicate_ocr, hchar.1, hfirst]
  · intro t0 t1 t2 t3 fallback h0 h1 h2 h3
    simp only [process_syndicate_ocr, List.foldl, synOcrStep, h0, h1, h2, h3]
    norm_num

/-- C6 witness: the instance part applied at four concrete strategy
outputs with meaningful-word counts 2, 5, 0 and 5. -/
theorem C6_strategy_selection_witness :
    process_syndicate_ocr
        [.ok ["aaa".toList, "bbb".toList],
         .ok ["aaaa".toList, "bbbb".toList, "cccc".toList, "dddd".toList, "eeee".toList],
         .ok [],
         .ok ["fffff".toList, "ggggg".toList, "hhhhh".toList, "iiiii".toList, "jjjjj".toList]]
        .exn =
      .ok (["aaaa".toList, "bbbb".toList, "cccc".toList, "dddd".toList, "eeee".toList],
        joinWith [' ']
          [joinedText ["aaa".toList, "bbb".toList],
           joinedText ["aaaa".toList, "bbbb".toList, "cccc".toList, "dddd".toList,
             "eeee".toList],
           joinedText [],
           joinedText ["fffff".toList, "ggggg".toList, "hhhhh".toList, "iiiii".toList,
             "jjjjj".toList]],
        ["aaaa".toList, "bbbb".toList, "cccc".toList, "dddd".toList, "eeee".toList].length) :=
  C6_strategy_selection.2
    ["aaa".toList, "bbb".toList]
    ["aaaa".toList, "bbbb".toList, "cccc".toList, "dddd".toList, "eeee".toList]
    []
    ["fffff".toList, "ggggg".toList, "hhhhh".toList, "iiiii".toList, "jjjjj".toList]
    .exn (by decide) (by decide) (by decide) (by decide)

/-- C10: focus-gate degradation.  Without win32 the focus check reports
True (scanning proceeds as if focused); a raising foreground-window query
reports False, never propagates, and makes the cycle gate sleep the 0.5 s
backoff and skip; under a persistently failing query every cycle of the
loop is a skip, so the engine scans nothing. -/
theorem C10_focus_gate :
    is_poe_focused Win32Env.unavailable = true ∧
    is_poe_focused Win32Env.queryFails = false ∧
    (∀ paused : Bool, loopGate paused Win32Env.queryFails =
      CycleStep.skipSleep (mkRat 1 2)) ∧
    (∀ n : Nat, (List.replicate n Win32Env.queryFails).map (loopGate false) =
      List.replicate n (CycleStep.skipSleep (mkRat 1 2))) := by
  refine ⟨rfl, rfl, fun paused => ?_, fun n => ?_⟩
  · cases paused <;> rfl
  · rw [List.map_replicate]
    rfl

/-- Failing input of the C1 code bug, evaluated: the first-pass OCR sees
the syndicate keyword "research", so the second pass runs; all four
strategies return no meaningful token, so the unguarded fallback OCR runs
and its exception propagates out of `process_image` (first conjunct).  The
claim's true part also holds for the first pass: its exception is caught
and yields "nothing found" (second conjunct). -/
theorem C1_fallback_exception :
    process_image ⟨none, none, none, ⟨0, 0, 0, 0⟩, none, none, []⟩ "Maps".toList 0
        ⟨false, 0, ⟨[], none⟩⟩ (.ok ["research".toList])
        [.ok [], .ok [], .ok [], .ok []] .exn = .error () ∧
    (∀ (syn_strategies : List OcrOutcome) (syn_fallback : OcrOutcome),
      process_image ⟨none, none, none, ⟨0, 0, 0, 0⟩, none, none, []⟩ "Maps".toList 0
          ⟨false, 0, ⟨[], none⟩⟩ .exn syn_strategies syn_fallback =
        .ok (false, ⟨false, 0, ⟨[], none⟩⟩)) :=
  ⟨rfl, fun _ _ => rfl⟩

/-- C9: each detector invoked without its required configuration — section
absent, section disabled, or (for the syndicate resolver) an empty goal
map — returns no Finding; the embedding is total, mirroring that the
source reads every section with defaulted `dict.get` and guards before
touching its vocabulary, so no exception is raised. -/
theorem C9_missing_config (btn : ButtonRect) (text : Str)
    (ctxs mods imms : List Str) (kws : List (Nat × List Str)) (mt : Nat)
    (tokens : List Str) (ft : Str) (mem : SyndicateMemory) (now : ℚ) :
    check_map_safety none btn text = none ∧
    check_map_safety (some ⟨false, ctxs, mods⟩) btn text = none ∧
    check_eldritch none text = none ∧
    check_eldritch (some ⟨false, mods, mt, kws⟩) text = none ∧
    check_expedition none text = none ∧
    check_expedition (some ⟨false, imms, mods⟩) text = none ∧
    check_syndicate [] tokens ft mem now = (none, mem) := by
  refine ⟨?_, ?_, ?_, ?_, ?_, ?_, ?_⟩
  · simp [check_map_safety]
  · simp [check_map_safety]
  · simp [check_eldritch]
  · simp [check_eldritch]
  · simp [check_expedition]
  · simp [check_expedition]
  · simp [check_syndicate]
